import Mathlib

/-!
Shallow embedding of the consul-cache service cache (src/cache.go).

The Go `ConsulCache` holds `serviceMap : map[string][]*api.AgentService`
plus a running flag.  The map is modelled as an association list in a
fixed iteration order (Go map iteration order is unspecified; the claims
never depend on a particular order).  Go map assignment `m[k] = v`
replaces the value when the key is present and otherwise adds the key;
lookup `v, ok := m[k]` is `findKey`.  A `nil` slice is modelled as `[]`.

The injected retriever `ServiceRetriever` is modelled by passing its
result — either an error or the list of records in iteration order — to
each operation that invokes it.  `rand.Intn(n)` is modelled by an
oracle `pick : Nat` reduced modulo the list length: every index is
reachable and for `pick < n` the index is `pick` itself.  Errors are the
Go error strings produced by `errors.New` / `fmt.Sprintf` in the source.
-/

namespace ServiceCache

deriving instance DecidableEq for Except

/-- Go type `api.AgentService`: one instance of a named service. -/
structure AgentService where
  id : String
  service : String
  address : String
  port : Int
  tags : List String
deriving DecidableEq, Repr

/-- The `serviceMap` field: service name to its known records. -/
abbrev ServiceMap := List (String × List AgentService)

/-- Go map lookup `v, ok := m[k]` (first matching key). -/
def findKey : ServiceMap → String → Option (List AgentService)
  | [], _ => none
  | (k, v) :: rest, name => if k = name then some v else findKey rest name

/-- Go map membership `_, ok := m[k]`. -/
def containsKey (m : ServiceMap) (name : String) : Bool :=
  (findKey m name).isSome

/-- Go map assignment `m[k] = v`: replace if present, otherwise add. -/
def setKey : ServiceMap → String → List AgentService → ServiceMap
  | [], name, v => [(name, v)]
  | (k, v') :: rest, name, v =>
      if k = name then (k, v) :: rest else (k, v') :: setKey rest name v

/-- The key set of the map, in iteration order. -/
def keys (m : ServiceMap) : List String :=
  m.map Prod.fst

/-- The state of `ConsulCache` that the claims are about: the record
store and the running flag (ticker and channels are scheduling state
with no bearing on these claims). -/
structure ConsulCache where
  serviceMap : ServiceMap
  alreadyRunning : Bool
deriving DecidableEq, Repr

/-- Default record used only as the (unreachable) fallback of `List.getD`. -/
def dummyService : AgentService :=
  ⟨"", "", "", 0, []⟩

/-- Method `cache.clear()`: set every existing key's slice to `nil`, keeping the key. -/
def clear (m : ServiceMap) : ServiceMap :=
  m.map (fun p => (p.1, []))

/-- Method `cache.verifyResult()`: error `"could not refresh <key>"` for the first
key whose slice is empty, in map iteration order; `none` if none is. -/
def verifyResult : ServiceMap → Option String
  | [] => none
  | (k, v) :: rest =>
      if v.length < 1 then some ("could not refresh " ++ k) else verifyResult rest

/-- The replace loop of `Refresh`: append each record to its service's
slice when that service is a key; drop it otherwise. -/
def replaceRecords : ServiceMap → List AgentService → ServiceMap
  | m, [] => m
  | m, r :: rest =>
      match findKey m r.service with
      | some val => replaceRecords (setKey m r.service (val ++ [r])) rest
      | none => replaceRecords m rest

/-- Method `cache.Refresh()`, with the retriever's outcome passed in: on
retriever error return it untouched; on success clear, replace, verify.
The second component is the returned `error` (`none` = `nil`). -/
def Refresh (cache : ConsulCache) (retrieved : Except String (List AgentService)) :
    ConsulCache × Option String :=
  match retrieved with
  | Except.error e => (cache, some e)
  | Except.ok services =>
      let m := replaceRecords (clear cache.serviceMap) services
      ({ cache with serviceMap := m }, verifyResult m)

/-- Method `cache.WatchServices(names...)`: assign a fresh empty slice to every
given name. -/
def WatchServices (cache : ConsulCache) (serviceNames : List String) : ConsulCache :=
  { cache with
    serviceMap := serviceNames.foldl (fun m n => setKey m n []) cache.serviceMap }

/-- Method `cache.IsWatched(services...)`: false on the first unwatched name. -/
def IsWatched (cache : ConsulCache) : List String → Bool
  | [] => true
  | s :: rest => if containsKey cache.serviceMap s then IsWatched cache rest else false

/-- Method `cache.Stop()`: no-op returning false when not running; otherwise
mark not running and return true (ticker/abort channel not modelled). -/
def Stop (cache : ConsulCache) : Bool × ConsulCache :=
  if cache.alreadyRunning then (true, { cache with alreadyRunning := false })
  else (false, cache)

/-- Method `cache.GetServiceInstance(name)`: the retriever outcome feeds the
inline `cache.Refresh()` (whose error the Go code discards), and `pick`
is the `rand.Intn` oracle. -/
def GetServiceInstance (cache : ConsulCache) (retrieved : Except String (List AgentService))
    (pick : Nat) (serviceName : String) : ConsulCache × Except String AgentService :=
  match findKey cache.serviceMap serviceName with
  | some val =>
      if val.length = 0 then
        let cache1 := (Refresh cache retrieved).1
        let val1 := (findKey cache1.serviceMap serviceName).getD []
        if val1.length = 0 then
          (cache1, Except.error "Requested Service is not avaiable")
        else
          (cache1, Except.ok (val1.getD (pick % val1.length) dummyService))
      else
        (cache, Except.ok (val.getD (pick % val.length) dummyService))
  | none => (cache, Except.error "Requested unregistered service")

/-- Method `cache.GetServiceAddress(name)`: delegate, then `fmt.Sprintf("%s:%d", ...)`. -/
def GetServiceAddress (cache : ConsulCache) (retrieved : Except String (List AgentService))
    (pick : Nat) (serviceName : String) : ConsulCache × Except String String :=
  match GetServiceInstance cache retrieved pick serviceName with
  | (c, Except.error e) => (c, Except.error e)
  | (c, Except.ok inst) => (c, Except.ok (inst.address ++ ":" ++ toString inst.port))

/-! Test fixture from src/cache_test.go (`fakeRetriever`): three
`authentication-service` records at 192.168.2.1-3:80 and three
`acl-service` records at 192.168.2.4-6:8080. -/

def svcA1 : AgentService := ⟨"1", "authentication-service", "192.168.2.1", 80, ["interactive-lecture", "public"]⟩

def svcA2 : AgentService := ⟨"2", "authentication-service", "192.168.2.2", 80, ["interactive-lecture", "public"]⟩

def svcA3 : AgentService := ⟨"3", "authentication-service", "192.168.2.3", 80, ["interactive-lecture", "public"]⟩

def svcB4 : AgentService := ⟨"4", "acl-service", "192.168.2.4", 8080, ["interactive-lecture", "public"]⟩

def svcB5 : AgentService := ⟨"5", "acl-service", "192.168.2.5", 8080, ["interactive-lecture", "public"]⟩

def svcB6 : AgentService := ⟨"6", "acl-service", "192.168.2.6", 8080, ["interactive-lecture", "public"]⟩

def svcL7 : AgentService := ⟨"7", "lecture-service", "192.168.2.7", 80, ["interactive-lecture", "public"]⟩

def svcL8 : AgentService := ⟨"8", "lecture-service", "192.168.2.8", 80, ["interactive-lecture", "public"]⟩

def svcL9 : AgentService := ⟨"9", "lecture-service", "192.168.2.9", 80, ["interactive-lecture", "public"]⟩

def fixtureRecords : List AgentService :=
  [svcA1, svcA2, svcA3, svcB4, svcB5, svcB6, svcL7, svcL8, svcL9]

/-- Cache configured with `authentication-service` and `acl-service` watched. -/
def cacheAB : ConsulCache :=
  WatchServices ⟨[], false⟩ ["authentication-service", "acl-service"]

/-- Cache additionally watching `document-service`, which the fixture
retriever never returns. -/
def cacheABC : ConsulCache :=
  WatchServices ⟨[], false⟩ ["authentication-service", "acl-service", "document-service"]

/-- State of `cacheAB` after a successful refresh from the fixture retriever. -/
def fixtureCache : ConsulCache :=
  (Refresh cacheAB (Except.ok fixtureRecords)).1

/-! Map lemmas. -/

theorem findKey_setKey_self (m : ServiceMap) (k : String) (v : List AgentService) :
    findKey (setKey m k v) k = some v := by
  induction m with
  | nil => simp [setKey, findKey]
  | cons p rest ih =>
      obtain ⟨k0, v0⟩ := p
      by_cases h : k0 = k
      · simp [setKey, findKey, h]
      · simp [setKey, findKey, h, ih]

theorem findKey_setKey_ne (m : ServiceMap) (k : String) (v : List AgentService)
    (name : String) (h : k ≠ name) :
    findKey (setKey m k v) name = findKey m name := by
  induction m with
  | nil => simp [setKey, findKey, h]
  | cons p rest ih =>
      obtain ⟨k0, v0⟩ := p
      by_cases h0 : k0 = k
      · subst h0
        simp [setKey, findKey, h]
      · simp [setKey, findKey, h0, ih]

theorem keys_setKey_of_contains (m : ServiceMap) (k : String) (v : List AgentService)
    (h : containsKey m k = true) :
    keys (setKey m k v) = keys m := by
  induction m with
  | nil => simp [containsKey, findKey] at h
  | cons p rest ih =>
      obtain ⟨k0, v0⟩ := p
      by_cases h0 : k0 = k
      · simp [setKey, keys, h0]
      · have h1 : containsKey rest k = true := by
          simpa [containsKey, findKey, h0] using h
        simp [setKey, keys, h0]
        simpa [keys] using ih h1

theorem containsKey_iff_mem_keys (m : ServiceMap) (n : String) :
    containsKey m n = true ↔ n ∈ keys m := by
  induction m with
  | nil => simp [containsKey, findKey, keys]
  | cons p rest ih =>
      obtain ⟨k0, v0⟩ := p
      by_cases h0 : k0 = n
      · simp [containsKey, findKey, keys, h0]
      · simp only [containsKey, findKey, if_neg h0]
        rw [show (findKey rest n).isSome = containsKey rest n from rfl, ih]
        simp [keys, Ne.symm h0]

theorem findKey_clear (m : ServiceMap) (n : String) :
    findKey (clear m) n = (findKey m n).map (fun _ => ([] : List AgentService)) := by
  induction m with
  | nil => simp [clear, findKey]
  | cons p rest ih =>
      obtain ⟨k0, v0⟩ := p
      by_cases h0 : k0 = n
      · simp [clear, findKey, h0]
      · simpa [clear, findKey, h0] using ih

theorem keys_clear (m : ServiceMap) : keys (clear m) = keys m := by
  simp [clear, keys]

theorem findKey_replaceRecords_some :
    ∀ (rs : List AgentService) (m : ServiceMap) (n : String) (l : List AgentService),
      findKey m n = some l →
      findKey (replaceRecords m rs) n = some (l ++ rs.filter (fun r => r.service == n))
  | [], m, n, l, h => by simp [replaceRecords, h]
  | r :: rest, m, n, l, h => by
      by_cases hrn : r.service = n
      · subst hrn
        simp only [replaceRecords, h]
        rw [findKey_replaceRecords_some rest _ _ _
          (findKey_setKey_self m r.service (l ++ [r]))]
        simp
      · cases hf : findKey m r.service with
        | none =>
            simp only [replaceRecords, hf]
            rw [findKey_replaceRecords_some rest m n l h]
            simp [hrn]
        | some val =>
            simp only [replaceRecords, hf]
            have h1 : findKey (setKey m r.service (val ++ [r])) n = some l := by
              rw [findKey_setKey_ne m r.service (val ++ [r]) n hrn]
              exact h
            rw [findKey_replaceRecords_some rest _ n l h1]
            simp [hrn]

theorem findKey_replaceRecords_none :
    ∀ (rs : List AgentService) (m : ServiceMap) (n : String),
      findKey m n = none → findKey (replaceRecords m rs) n = none
  | [], m, n, h => by simpa [replaceRecords] using h
  | r :: rest, m, n, h => by
      rw [replaceRecords]
      cases hf : findKey m r.service with
      | none => exact findKey_replaceRecords_none rest m n h
      | some val =>
          have hrn : r.service ≠ n := by
            intro he
            rw [he, h] at hf
            exact Option.noConfusion hf
          have h1 : findKey (setKey m r.service (val ++ [r])) n = none := by
            rw [findKey_setKey_ne m r.service (val ++ [r]) n hrn, h]
          exact findKey_replaceRecords_none rest _ n h1

theorem keys_replaceRecords :
    ∀ (rs : List AgentService) (m : ServiceMap),
      keys (replaceRecords m rs) = keys m
  | [], m => by simp [replaceRecords]
  | r :: rest, m => by
      rw [replaceRecords]
      cases hf : findKey m r.service with
      | none => exact keys_replaceRecords rest m
      | some val =>
          rw [keys_replaceRecords rest _]
          exact keys_setKey_of_contains m r.service (val ++ [r]) (by simp [containsKey, hf])

theorem verifyResult_some_of_empty :
    ∀ (m : ServiceMap) (k : String), (keys m).Nodup → findKey m k = some [] →
      ∃ e, verifyResult m = some ("could not refresh " ++ e) ∧ findKey m e = some []
  | [], k, _, h => by simp [findKey] at h
  | (k0, v0) :: rest, k, hnd, h => by
      by_cases hv : v0 = []
      · refine ⟨k0, ?_, ?_⟩
        · simp [verifyResult, hv]
        · simp [findKey, hv]
      · have hlen : ¬ v0.length < 1 := by
          simpa [Nat.lt_one_iff, List.length_eq_zero] using hv
        have hk0 : k0 ≠ k := by
          intro he
          rw [findKey, if_pos he] at h
          exact hv (by injection h)
        have hrest : findKey rest k = some [] := by
          rw [findKey, if_neg hk0] at h
          exact h
        have hnd' : (keys rest).Nodup := by
          simpa [keys] using hnd.of_cons
        obtain ⟨e, he1, he2⟩ := verifyResult_some_of_empty rest k hnd' hrest
        refine ⟨e, ?_, ?_⟩
        · simp [verifyResult, hlen, he1]
        · have hk0e : k0 ≠ e := by
            intro heq
            have hmem : e ∈ keys rest := by
              have : containsKey rest e = true := by simp [containsKey, he2]
              exact (containsKey_iff_mem_keys rest e).mp this
            rw [heq] at hnd
            have : e ∉ keys rest := by
              have h' := hnd
              simp [keys] at h'
              intro hc
              exact absurd hc (by simpa [keys] using h'.1)
            exact this hmem
          rw [findKey, if_neg hk0e]
          exact he2

theorem getD_mod_mem (l : List AgentService) (h : l ≠ []) (pick : Nat) :
    l.getD (pick % l.length) dummyService ∈ l := by
  have hlen : 0 < l.length := List.length_pos.mpr h
  have hlt : pick % l.length < l.length := Nat.mod_lt _ hlen
  rw [List.getD_eq_getElem l dummyService hlt]
  exact l.getElem_mem hlt

theorem setKey_eq_self (m : ServiceMap) (k : String) (v : List AgentService)
    (h : findKey m k = some v) : setKey m k v = m := by
  induction m with
  | nil => simp [findKey] at h
  | cons p rest ih =>
      obtain ⟨k0, v0⟩ := p
      by_cases h0 : k0 = k
      · have : v0 = v := by
          rw [findKey, if_pos h0] at h
          injection h
        simp [setKey, h0, this]
      · rw [findKey, if_neg h0] at h
        simp [setKey, h0, ih h]

theorem findKey_foldl_set_of_not_mem :
    ∀ (names : List String) (m : ServiceMap) (n : String), n ∉ names →
      findKey (names.foldl (fun m x => setKey m x []) m) n = findKey m n
  | [], m, n, _ => rfl
  | x :: rest, m, n, h => by
      have hx : x ≠ n := fun he => h (by simp [he])
      have hr : n ∉ rest := fun hc => h (by simp [hc])
      rw [List.foldl_cons, findKey_foldl_set_of_not_mem rest _ n hr,
        findKey_setKey_ne m x [] n hx]

theorem findKey_foldl_set_of_mem :
    ∀ (names : List String) (m : ServiceMap) (n : String), n ∈ names →
      findKey (names.foldl (fun m x => setKey m x []) m) n = some []
  | [], _, n, h => by simp at h
  | x :: rest, m, n, h => by
      by_cases hr : n ∈ rest
      · exact findKey_foldl_set_of_mem rest _ n hr
      · have hx : n = x := by
          rcases List.mem_cons.mp h with h1 | h1
          · exact h1
          · exact absurd h1 hr
        subst hx
        rw [List.foldl_cons, findKey_foldl_set_of_not_mem rest _ n hr,
          findKey_setKey_self m n []]

theorem foldl_set_id :
    ∀ (names : List String) (m : ServiceMap), (∀ n ∈ names, findKey m n = some []) →
      names.foldl (fun m x => setKey m x []) m = m
  | [], _, _ => rfl
  | x :: rest, m, h => by
      rw [List.foldl_cons, setKey_eq_self m x [] (h x (by simp))]
      exact foldl_set_id rest m (fun n hn => h n (by simp [hn]))

/-! Evaluation lemmas for `Refresh` and `GetServiceInstance`. -/

theorem refresh_ok_serviceMap (cache : ConsulCache) (records : List AgentService) :
    (Refresh cache (Except.ok records)).1.serviceMap =
      replaceRecords (clear cache.serviceMap) records :=
  rfl

theorem refresh_ok_error (cache : ConsulCache) (records : List AgentService) :
    (Refresh cache (Except.ok records)).2 =
      verifyResult (replaceRecords (clear cache.serviceMap) records) :=
  rfl

theorem refresh_preserves_containsKey (cache : ConsulCache)
    (ret : Except String (List AgentService)) (n : String) :
    containsKey (Refresh cache ret).1.serviceMap n = containsKey cache.serviceMap n := by
  cases ret with
  | error e => rfl
  | ok records =>
      rw [Bool.eq_iff_iff, containsKey_iff_mem_keys, containsKey_iff_mem_keys,
        refresh_ok_serviceMap, keys_replaceRecords, keys_clear]

theorem getServiceInstance_unregistered (cache : ConsulCache)
    (ret : Except String (List AgentService)) (pick : Nat) (name : String)
    (h : findKey cache.serviceMap name = none) :
    GetServiceInstance cache ret pick name =
      (cache, Except.error "Requested unregistered service") := by
  simp only [GetServiceInstance, h]

theorem getServiceInstance_nonempty (cache : ConsulCache)
    (ret : Except String (List AgentService)) (pick : Nat) (name : String)
    (l : List AgentService) (h : findKey cache.serviceMap name = some l) (hne : l ≠ []) :
    GetServiceInstance cache ret pick name =
      (cache, Except.ok (l.getD (pick % l.length) dummyService)) := by
  have hlen : ¬ l.length = 0 := by simpa [List.length_eq_zero] using hne
  simp only [GetServiceInstance, h, hlen, if_false]

theorem getServiceInstance_empty_still_empty (cache : ConsulCache)
    (ret : Except String (List AgentService)) (pick : Nat) (name : String)
    (h : findKey cache.serviceMap name = some [])
    (h2 : (findKey (Refresh cache ret).1.serviceMap name).getD [] = []) :
    GetServiceInstance cache ret pick name =
      ((Refresh cache ret).1, Except.error "Requested Service is not avaiable") := by
  have h2len : ((findKey (Refresh cache ret).1.serviceMap name).getD []).length = 0 := by
    rw [h2]
    rfl
  simp only [GetServiceInstance, h, List.length_nil, if_true, h2len]

theorem getServiceInstance_empty_refreshed (cache : ConsulCache)
    (ret : Except String (List AgentService)) (pick : Nat) (name : String)
    (l' : List AgentService)
    (h : findKey cache.serviceMap name = some [])
    (h2 : findKey (Refresh cache ret).1.serviceMap name = some l') (hne : l' ≠ []) :
    GetServiceInstance cache ret pick name =
      ((Refresh cache ret).1, Except.ok (l'.getD (pick % l'.length) dummyService)) := by
  have hlen : ¬ l'.length = 0 := by simpa [List.length_eq_zero] using hne
  simp only [GetServiceInstance, h, List.length_nil, if_true, h2, Option.getD_some, hlen,
    if_false]

theorem getServiceInstance_state (cache : ConsulCache)
    (ret : Except String (List AgentService)) (pick : Nat) (name : String) :
    (GetServiceInstance cache ret pick name).1 = cache ∨
    (GetServiceInstance cache ret pick name).1 = (Refresh cache ret).1 := by
  cases hf : findKey cache.serviceMap name with
  | none => rw [getServiceInstance_unregistered cache ret pick name hf]; exact Or.inl rfl
  | some val =>
      by_cases hl : val = []
      · subst hl
        cases h2 : findKey (Refresh cache ret).1.serviceMap name with
        | none =>
            rw [getServiceInstance_empty_still_empty cache ret pick name hf (by rw [h2]; rfl)]
            exact Or.inr rfl
        | some l' =>
            by_cases hne : l' = []
            · subst hne
              rw [getServiceInstance_empty_still_empty cache ret pick name hf (by rw [h2]; rfl)]
              exact Or.inr rfl
            · rw [getServiceInstance_empty_refreshed cache ret pick name l' hf h2 hne]
              exact Or.inr rfl
      · rw [getServiceInstance_nonempty cache ret pick name val hf hl]
        exact Or.inl rfl

end ServiceCache

namespace ServiceCache

/-- C4: on retriever failure, Refresh returns that failure unchanged and
leaves the record store (indeed the whole cache state) exactly as it was. -/
theorem c4_refresh_retriever_failure_no_mutation (cache : ConsulCache) (e : String) :
    Refresh cache (Except.error e) = (cache, some e) :=
  rfl

/-- C7: Stop on a non-running cache returns false and changes nothing;
on a running cache it returns true, marks not running, and leaves the
record store untouched. -/
theorem c7_stop_behavior (cache : ConsulCache) :
    (cache.alreadyRunning = false → Stop cache = (false, cache)) ∧
    (cache.alreadyRunning = true →
      (Stop cache).1 = true ∧ (Stop cache).2.alreadyRunning = false ∧
      (Stop cache).2.serviceMap = cache.serviceMap) := by
  constructor
  · intro h
    simp [Stop, h]
  · intro h
    simp [Stop, h]

/-- Witness for C7 at concrete caches: one not running, one running. -/
theorem c7_stop_behavior_witness :
    Stop ⟨[], false⟩ = (false, ⟨[], false⟩) ∧
    (Stop ⟨[], true⟩).1 = true ∧ (Stop ⟨[], true⟩).2.alreadyRunning = false :=
  ⟨(c7_stop_behavior ⟨[], false⟩).1 rfl,
   ((c7_stop_behavior ⟨[], true⟩).2 rfl).1,
   ((c7_stop_behavior ⟨[], true⟩).2 rfl).2.1⟩

/-- C10: IsWatched with no names is true on every cache state, including
one watching nothing. -/
theorem c10_iswatched_empty (cache : ConsulCache) :
    IsWatched cache [] = true :=
  rfl

/-- A cache already watching `authentication-service` with one record. -/
def cacheA1 : ConsulCache :=
  ⟨[("authentication-service", [svcA1])], false⟩

/-- C3 counterexample: on a store where `authentication-service` is
already watched with a non-empty sequence, WatchServices of that very
name resets its sequence to empty — the sequence is not unchanged, so
the claim as stated is false. -/
theorem c3_watchservices_counterexample :
    findKey cacheA1.serviceMap "authentication-service" = some [svcA1] ∧
    findKey (WatchServices cacheA1 ["authentication-service"]).serviceMap
      "authentication-service" = some [] ∧
    some ([] : List AgentService) ≠ some [svcA1] := by
  refine ⟨rfl, rfl, ?_⟩
  simp

/-- C3 amended: WatchServices assigns a fresh empty sequence to every
given name — creating the key when absent and resetting the sequence
(even a non-empty one) when present — leaves names that were not given
untouched, and is idempotent. -/
theorem c3_watchservices_amended (cache : ConsulCache) (names : List String) (n : String) :
    (n ∈ names → findKey (WatchServices cache names).serviceMap n = some []) ∧
    (n ∉ names → findKey (WatchServices cache names).serviceMap n = findKey cache.serviceMap n) ∧
    WatchServices (WatchServices cache names) names = WatchServices cache names := by
  refine ⟨fun h => findKey_foldl_set_of_mem names _ n h,
    fun h => findKey_foldl_set_of_not_mem names _ n h, ?_⟩
  have h1 : ∀ x ∈ names, findKey ((WatchServices cache names).serviceMap) x = some [] :=
    fun x hx => findKey_foldl_set_of_mem names _ x hx
  show ({ WatchServices cache names with
    serviceMap := names.foldl (fun m x => setKey m x []) (WatchServices cache names).serviceMap }
      : ConsulCache) = WatchServices cache names
  rw [foldl_set_id names _ h1]

/-- Witness for the amended C3 at a concrete store: a new name gets an
empty sequence, an unmentioned watched name keeps its records. -/
theorem c3_watchservices_amended_witness :
    findKey (WatchServices cacheA1 ["acl-service"]).serviceMap "acl-service" = some [] ∧
    findKey (WatchServices cacheA1 ["acl-service"]).serviceMap "authentication-service" =
      findKey cacheA1.serviceMap "authentication-service" :=
  ⟨(c3_watchservices_amended cacheA1 ["acl-service"] "acl-service").1 (by simp),
   (c3_watchservices_amended cacheA1 ["acl-service"] "authentication-service").2.1 (by simp)⟩

/-- C5: on a successful retrieval, Refresh keeps the key set unchanged,
appends every record whose service name is watched to that service's
sequence, and drops records of unwatched names: they appear in no
sequence of the resulting store. -/
theorem c5_refresh_append_watched_drop_unwatched (cache : ConsulCache)
    (records : List AgentService) :
    (∀ n, containsKey (Refresh cache (Except.ok records)).1.serviceMap n =
      containsKey cache.serviceMap n) ∧
    (∀ r, r ∈ records → containsKey cache.serviceMap r.service = true →
      r ∈ (findKey (Refresh cache (Except.ok records)).1.serviceMap r.service).getD []) ∧
    (∀ r, r ∈ records → containsKey cache.serviceMap r.service = false →
      ∀ n l, findKey (Refresh cache (Except.ok records)).1.serviceMap n = some l → r ∉ l) := by
  refine ⟨fun n => refresh_preserves_containsKey cache (Except.ok records) n, ?_, ?_⟩
  · intro r hr hc
    obtain ⟨l0, hl0⟩ := Option.isSome_iff_exists.mp hc
    have hclear : findKey (clear cache.serviceMap) r.service = some [] := by
      rw [findKey_clear, hl0]
      rfl
    rw [refresh_ok_serviceMap,
      findKey_replaceRecords_some records (clear cache.serviceMap) r.service [] hclear]
    simp only [List.nil_append, Option.getD_some]
    exact List.mem_filter.mpr ⟨hr, by simp⟩
  · intro r hr hc n l hl hmem
    rw [refresh_ok_serviceMap] at hl
    cases hf : findKey cache.serviceMap n with
    | none =>
        have : findKey (clear cache.serviceMap) n = none := by
          rw [findKey_clear, hf]
          rfl
        rw [findKey_replaceRecords_none records (clear cache.serviceMap) n this] at hl
        exact Option.noConfusion hl
    | some l0 =>
        have hclear : findKey (clear cache.serviceMap) n = some [] := by
          rw [findKey_clear, hf]
          rfl
        rw [findKey_replaceRecords_some records (clear cache.serviceMap) n [] hclear] at hl
        simp only [List.nil_append] at hl
        have hl' : records.filter (fun r' => r'.service == n) = l := Option.some.inj hl
        rw [← hl'] at hmem
        have hsvc : r.service = n := by
          have := List.mem_filter.mp hmem
          simpa using this.2
        rw [hsvc] at hc
        rw [show containsKey cache.serviceMap n = true by simp [containsKey, hf]] at hc
        exact Bool.noConfusion hc

/-- Witness for C5 on the test fixture: the key set of `fixtureCache`
matches `cacheAB`, a watched record (`svcA1`) lands in its service's
sequence, and an unwatched `lecture-service` record lands nowhere. -/
theorem c5_refresh_witness :
    containsKey fixtureCache.serviceMap "authentication-service" =
      containsKey cacheAB.serviceMap "authentication-service" ∧
    svcA1 ∈ (findKey fixtureCache.serviceMap "authentication-service").getD [] ∧
    (∀ l, findKey fixtureCache.serviceMap "authentication-service" = some l → svcL7 ∉ l) := by
  have h := c5_refresh_append_watched_drop_unwatched cacheAB fixtureRecords
  refine ⟨h.1 "authentication-service", h.2.1 svcA1 (by simp [fixtureRecords]) (by decide), ?_⟩
  intro l hl
  exact h.2.2 svcL7 (by simp [fixtureRecords]) (by decide) "authentication-service" l hl

/-- C6: once watched, a name stays a key: clear empties its sequence
but keeps the key, and Refresh (either outcome), WatchServices,
GetServiceInstance and Stop all leave it a key of the store. -/
theorem c6_watched_key_persistence (cache : ConsulCache) (n : String)
    (h : containsKey cache.serviceMap n = true) :
    findKey (clear cache.serviceMap) n = some [] ∧
    (∀ ret, containsKey (Refresh cache ret).1.serviceMap n = true) ∧
    (∀ names, containsKey (WatchServices cache names).serviceMap n = true) ∧
    (∀ ret pick s, containsKey (GetServiceInstance cache ret pick s).1.serviceMap n = true) ∧
    containsKey (Stop cache).2.serviceMap n = true := by
  obtain ⟨l0, hl0⟩ := Option.isSome_iff_exists.mp h
  refine ⟨?_, ?_, ?_, ?_, ?_⟩
  · rw [findKey_clear, hl0]
    rfl
  · intro ret
    rw [refresh_preserves_containsKey]
    exact h
  · intro names
    by_cases hm : n ∈ names
    · have := findKey_foldl_set_of_mem names cache.serviceMap n hm
      simp [WatchServices, containsKey, this]
    · have := findKey_foldl_set_of_not_mem names cache.serviceMap n hm
      simp [WatchServices, containsKey, this, hl0]
  · intro ret pick s
    rcases getServiceInstance_state cache ret pick s with hs | hs
    · rw [hs]
      exact h
    · rw [hs, refresh_preserves_containsKey]
      exact h
  · have : (Stop cache).2.serviceMap = cache.serviceMap := by
      by_cases hr : cache.alreadyRunning
      · simp [Stop, hr]
      · simp [Stop, hr]
    rw [this]
    exact h

/-- C1: when the retriever succeeds but some watched name ends with an
empty sequence after clear-and-replace, Refresh returns the
incomplete-refresh error naming an empty service, while the replaced
data stays committed: every watched name for which the retriever
returned at least one record holds a non-empty sequence, and a lookup
on it succeeds. -/
theorem c1_incomplete_refresh_partial_commit (cache : ConsulCache)
    (records : List AgentService) (name : String) (l0 : List AgentService)
    (hwf : (keys cache.serviceMap).Nodup)
    (hname : findKey cache.serviceMap name = some l0)
    (hempty : records.filter (fun r => r.service == name) = []) :
    (∃ k, (Refresh cache (Except.ok records)).2 = some ("could not refresh " ++ k) ∧
      findKey (Refresh cache (Except.ok records)).1.serviceMap k = some []) ∧
    (∀ n ln, findKey cache.serviceMap n = some ln →
      records.filter (fun r => r.service == n) ≠ [] →
      ∃ l, findKey (Refresh cache (Except.ok records)).1.serviceMap n = some l ∧ l ≠ [] ∧
        ∀ ret2 pick, ∃ r,
          (GetServiceInstance (Refresh cache (Except.ok records)).1 ret2 pick n).2 =
            Except.ok r ∧ r ∈ l) := by
  have hclear : findKey (clear cache.serviceMap) name = some [] := by
    rw [findKey_clear, hname]
    rfl
  have hm : findKey (Refresh cache (Except.ok records)).1.serviceMap name = some [] := by
    rw [refresh_ok_serviceMap,
      findKey_replaceRecords_some records (clear cache.serviceMap) name [] hclear,
      List.nil_append, hempty]
  have hwf' : (keys (Refresh cache (Except.ok records)).1.serviceMap).Nodup := by
    rw [refresh_ok_serviceMap, keys_replaceRecords, keys_clear]
    exact hwf
  constructor
  · obtain ⟨e, he1, he2⟩ :=
      verifyResult_some_of_empty (Refresh cache (Except.ok records)).1.serviceMap name hwf' hm
    exact ⟨e, he1, he2⟩
  · intro n ln hn hfil
    have hclearn : findKey (clear cache.serviceMap) n = some [] := by
      rw [findKey_clear, hn]
      rfl
    have hfn : findKey (Refresh cache (Except.ok records)).1.serviceMap n =
        some (records.filter (fun r => r.service == n)) := by
      rw [refresh_ok_serviceMap,
        findKey_replaceRecords_some records (clear cache.serviceMap) n [] hclearn,
        List.nil_append]
    refine ⟨records.filter (fun r => r.service == n), hfn, hfil, ?_⟩
    intro ret2 pick
    rw [getServiceInstance_nonempty _ ret2 pick n _ hfn hfil]
    exact ⟨_, rfl, getD_mod_mem _ hfil pick⟩

/-- Witness for C1 on the test fixture: watching A, B and
`document-service` while the retriever only returns A, B and
lecture-service records makes Refresh fail naming an empty service,
yet a lookup for A succeeds afterwards. -/
theorem c1_incomplete_refresh_witness :
    (∃ k, (Refresh cacheABC (Except.ok fixtureRecords)).2 =
        some ("could not refresh " ++ k) ∧
      findKey (Refresh cacheABC (Except.ok fixtureRecords)).1.serviceMap k = some []) ∧
    (∃ r, (GetServiceInstance (Refresh cacheABC (Except.ok fixtureRecords)).1
        (Except.error "boom") 0 "authentication-service").2 = Except.ok r ∧
      r ∈ [svcA1, svcA2, svcA3]) := by
  have h := c1_incomplete_refresh_partial_commit cacheABC fixtureRecords "document-service" []
    (by decide) (by decide) (by decide)
  refine ⟨h.1, ?_⟩
  obtain ⟨l, hl, hne, hr⟩ := h.2 "authentication-service" [] (by decide) (by decide)
  obtain ⟨r, hr1, hr2⟩ := hr (Except.error "boom") 0
  have hfix : findKey (Refresh cacheABC (Except.ok fixtureRecords)).1.serviceMap
      "authentication-service" = some [svcA1, svcA2, svcA3] := by decide
  rw [hfix] at hl
  exact ⟨r, hr1, (Option.some.inj hl) ▸ hr2⟩

/-- C2: GetServiceInstance fails with the unregistered-service error
when the name is not a key; returns an element of the sequence (at the
random index, every index reachable) when the sequence is non-empty;
and for a watched-but-empty name performs one synchronous refresh,
re-reads, and fails with the service-unavailable error exactly when the
sequence is still empty, otherwise returning a record of the refreshed
sequence. -/
theorem c2_getserviceinstance_cases (cache : ConsulCache)
    (ret : Except String (List AgentService)) (pick : Nat) (name : String) :
    (findKey cache.serviceMap name = none →
      GetServiceInstance cache ret pick name =
        (cache, Except.error "Requested unregistered service")) ∧
    (∀ l, findKey cache.serviceMap name = some l → l ≠ [] →
      GetServiceInstance cache ret pick name =
        (cache, Except.ok (l.getD (pick % l.length) dummyService)) ∧
      l.getD (pick % l.length) dummyService ∈ l ∧
      (∀ i, i < l.length →
        (GetServiceInstance cache ret i name).2 = Except.ok (l.getD i dummyService))) ∧
    (findKey cache.serviceMap name = some [] →
      (GetServiceInstance cache ret pick name).1 = (Refresh cache ret).1 ∧
      ((GetServiceInstance cache ret pick name).2 =
          Except.error "Requested Service is not avaiable" ↔
        (findKey (Refresh cache ret).1.serviceMap name).getD [] = []) ∧
      (∀ l', findKey (Refresh cache ret).1.serviceMap name = some l' → l' ≠ [] →
        (GetServiceInstance cache ret pick name).2 =
          Except.ok (l'.getD (pick % l'.length) dummyService) ∧
        l'.getD (pick % l'.length) dummyService ∈ l')) := by
  refine ⟨fun h => getServiceInstance_unregistered cache ret pick name h, ?_, ?_⟩
  · intro l h hne
    refine ⟨getServiceInstance_nonempty cache ret pick name l h hne,
      getD_mod_mem l hne pick, ?_⟩
    intro i hi
    rw [getServiceInstance_nonempty cache ret i name l h hne, Nat.mod_eq_of_lt hi]
  · intro h
    cases hf : findKey (Refresh cache ret).1.serviceMap name with
    | none =>
        have hge : (findKey (Refresh cache ret).1.serviceMap name).getD
            ([] : List AgentService) = [] := by
          rw [hf]
          rfl
        rw [getServiceInstance_empty_still_empty cache ret pick name h hge]
        refine ⟨rfl, by simp, ?_⟩
        intro l' hl'
        exact absurd hl' (by simp)
    | some l' =>
        by_cases hne : l' = []
        · subst hne
          have hge : (findKey (Refresh cache ret).1.serviceMap name).getD
              ([] : List AgentService) = [] := by
            rw [hf]
            rfl
          rw [getServiceInstance_empty_still_empty cache ret pick name h hge]
          refine ⟨rfl, by simp, ?_⟩
          intro l'' hl'' hne''
          exact absurd (Option.some.inj hl'').symm hne''
        · rw [getServiceInstance_empty_refreshed cache ret pick name l' h hf hne]
          refine ⟨rfl, by simp [hne], ?_⟩
          intro l'' hl'' hne''
          obtain rfl := Option.some.inj hl''
          exact ⟨rfl, getD_mod_mem _ hne'' pick⟩

/-- Witness for C2: an unwatched name fails as unregistered, a
populated name returns the indexed record, and a watched name whose
sequence stays empty through the inline refresh yields the
service-unavailable error. -/
theorem c2_getserviceinstance_witness :
    GetServiceInstance cacheAB (Except.error "e") 0 "unknown-service" =
      (cacheAB, Except.error "Requested unregistered service") ∧
    GetServiceInstance fixtureCache (Except.error "e") 4 "authentication-service" =
      (fixtureCache,
        Except.ok ([svcA1, svcA2, svcA3].getD (4 % [svcA1, svcA2, svcA3].length)
          dummyService)) ∧
    ((GetServiceInstance cacheABC (Except.ok fixtureRecords) 0 "document-service").2 =
        Except.error "Requested Service is not avaiable" ↔
      (findKey (Refresh cacheABC (Except.ok fixtureRecords)).1.serviceMap
        "document-service").getD [] = []) := by
  refine ⟨(c2_getserviceinstance_cases cacheAB (Except.error "e") 0 "unknown-service").1
    (by decide), ?_, ?_⟩
  · exact ((c2_getserviceinstance_cases fixtureCache (Except.error "e") 4
      "authentication-service").2.1 [svcA1, svcA2, svcA3] (by decide) (by simp)).1
  · exact ((c2_getserviceinstance_cases cacheABC (Except.ok fixtureRecords) 0
      "document-service").2.2 (by decide)).2.1

/-- C9: the inline refresh performed by GetServiceInstance for a
watched-but-empty name never propagates the refresh's own error: the
only error the caller can see is the service-unavailable one, it occurs
exactly when the sequence is still empty after the refresh, and a
non-empty refreshed sequence yields a record. -/
theorem c9_inline_refresh_error_discarded (cache : ConsulCache)
    (ret : Except String (List AgentService)) (pick : Nat) (name : String)
    (h : findKey cache.serviceMap name = some []) :
    (∀ e, (GetServiceInstance cache ret pick name).2 = Except.error e →
      e = "Requested Service is not avaiable") ∧
    ((GetServiceInstance cache ret pick name).2 =
        Except.error "Requested Service is not avaiable" ↔
      (findKey (Refresh cache ret).1.serviceMap name).getD [] = []) ∧
    ((findKey (Refresh cache ret).1.serviceMap name).getD [] ≠ [] →
      ∃ r, (GetServiceInstance cache ret pick name).2 = Except.ok r) := by
  cases hf : findKey (Refresh cache ret).1.serviceMap name with
  | none =>
      have hge : (findKey (Refresh cache ret).1.serviceMap name).getD
          ([] : List AgentService) = [] := by
        rw [hf]
        rfl
      rw [getServiceInstance_empty_still_empty cache ret pick name h hge]
      refine ⟨?_, by simp, fun hc => absurd rfl hc⟩
      intro e he
      simpa using he.symm
  | some l' =>
      by_cases hne : l' = []
      · subst hne
        have hge : (findKey (Refresh cache ret).1.serviceMap name).getD
            ([] : List AgentService) = [] := by
          rw [hf]
          rfl
        rw [getServiceInstance_empty_still_empty cache ret pick name h hge]
        refine ⟨?_, by simp, fun hc => absurd rfl hc⟩
        intro e he
        simpa using he.symm
      · rw [getServiceInstance_empty_refreshed cache ret pick name l' h hf hne]
        refine ⟨?_, by simp [hne], ?_⟩
        · intro e he
          simp at he
        · intro _
          exact ⟨_, rfl⟩

/-- Witness for C9: looking up A on the {A,B,C}-watching cache whose
store is still empty triggers an inline refresh whose incomplete-refresh
error (C has no records) is discarded, and the lookup returns a record. -/
theorem c9_inline_refresh_witness :
    ((GetServiceInstance cacheABC (Except.ok fixtureRecords) 0 "authentication-service").2 =
        Except.error "Requested Service is not avaiable" ↔
      (findKey (Refresh cacheABC (Except.ok fixtureRecords)).1.serviceMap
        "authentication-service").getD [] = []) ∧
    (∃ r, (GetServiceInstance cacheABC (Except.ok fixtureRecords) 0
      "authentication-service").2 = Except.ok r) := by
  have h := c9_inline_refresh_error_discarded cacheABC (Except.ok fixtureRecords) 0
    "authentication-service" (by decide)
  exact ⟨h.2.1, h.2.2 (by decide)⟩

/-- C8: GetServiceAddress keeps GetServiceInstance's state, propagates
its error unchanged, formats a success as address:port, and on the
refreshed test fixture returns one of the three known A endpoints. -/
theorem c8_getserviceaddress_format (cache : ConsulCache)
    (ret : Except String (List AgentService)) (pick : Nat) (name : String) :
    (GetServiceAddress cache ret pick name).1 = (GetServiceInstance cache ret pick name).1 ∧
    (∀ e, (GetServiceInstance cache ret pick name).2 = Except.error e →
      (GetServiceAddress cache ret pick name).2 = Except.error e) ∧
    (∀ r, (GetServiceInstance cache ret pick name).2 = Except.ok r →
      (GetServiceAddress cache ret pick name).2 =
        Except.ok (r.address ++ ":" ++ toString r.port)) ∧
    (GetServiceAddress fixtureCache ret pick "authentication-service").2 ∈
      [Except.ok "192.168.2.1:80", Except.ok "192.168.2.2:80",
        Except.ok "192.168.2.3:80"] := by
  refine ⟨?_, ?_, ?_, ?_⟩
  · rcases hg : GetServiceInstance cache ret pick name with ⟨c, res⟩
    cases res with
    | error e => simp [GetServiceAddress, hg]
    | ok inst => simp [GetServiceAddress, hg]
  · intro e he
    rcases hg : GetServiceInstance cache ret pick name with ⟨c, res⟩
    rw [hg] at he
    cases res with
    | error e0 =>
        simp at he
        simp [GetServiceAddress, hg, he]
    | ok inst => simp at he
  · intro r hr
    rcases hg : GetServiceInstance cache ret pick name with ⟨c, res⟩
    rw [hg] at hr
    cases res with
    | error e0 => simp at hr
    | ok inst =>
        simp at hr
        simp [GetServiceAddress, hg, hr]
  · have hfind : findKey fixtureCache.serviceMap "authentication-service" =
        some [svcA1, svcA2, svcA3] := by decide
    have hinst := getServiceInstance_nonempty fixtureCache ret pick "authentication-service"
      [svcA1, svcA2, svcA3] hfind (by simp)
    have haddr : GetServiceAddress fixtureCache ret pick "authentication-service" =
        (fixtureCache, Except.ok
          (([svcA1, svcA2, svcA3].getD (pick % 3) dummyService).address ++ ":" ++
            toString (([svcA1, svcA2, svcA3].getD (pick % 3) dummyService).port))) := by
      simp [GetServiceAddress, hinst]
    rw [haddr]
    have hmod : pick % 3 = 0 ∨ pick % 3 = 1 ∨ pick % 3 = 2 := by omega
    rcases hmod with hm | hm | hm <;> rw [hm] <;> decide

/-- Witness for C8: a concrete successful lookup on the fixture is
formatted as address:port, and a concrete failed lookup propagates the
unregistered-service error. -/
theorem c8_getserviceaddress_witness :
    (GetServiceAddress fixtureCache (Except.error "e") 0 "authentication-service").2 =
      Except.ok (svcA1.address ++ ":" ++ toString svcA1.port) ∧
    (GetServiceAddress fixtureCache (Except.error "e") 0 "unknown-service").2 =
      Except.error "Requested unregistered service" := by
  constructor
  · exact (c8_getserviceaddress_format fixtureCache (Except.error "e") 0
      "authentication-service").2.2.1 svcA1 (by decide)
  · exact (c8_getserviceaddress_format fixtureCache (Except.error "e") 0
      "unknown-service").2.1 "Requested unregistered service" (by decide)

/-- Witness for C6 at the configured cache and a concrete name. -/
theorem c6_watched_key_persistence_witness :
    findKey (clear cacheAB.serviceMap) "authentication-service" = some [] ∧
    containsKey (Refresh cacheAB (Except.ok fixtureRecords)).1.serviceMap
      "authentication-service" = true ∧
    containsKey (WatchServices cacheAB ["document-service"]).serviceMap
      "authentication-service" = true ∧
    containsKey (GetServiceInstance cacheAB (Except.ok fixtureRecords) 0
      "acl-service").1.serviceMap "authentication-service" = true ∧
    containsKey (Stop cacheAB).2.serviceMap "authentication-service" = true := by
  have h := c6_watched_key_persistence cacheAB "authentication-service" (by decide)
  exact ⟨h.1, h.2.1 _, h.2.2.1 _, h.2.2.2.1 _ _ _, h.2.2.2.2⟩

end ServiceCache
